import Mathlib

/-!
Verification of the incremental highlighting driver of the xi-editor
experimental `lang` plugin.

The embedding follows `src/rust/experimental/lang/src/main.rs` and
`src/rust/experimental/lang/src/tracker.rs`.  The pluggable `Parser`
capability, the `statestack` lexer state, and the host environment
(`xi_plugin_lib::View`) are external collaborators whose sources are not part
of this repository; they are modelled from the specification at their
interfaces.  Host calls made by the driver are recorded in an event log.
-/

set_option autoImplicit false

namespace XiLang

/-- Lexer state (`statestack::State`).  The driver only requires equality
comparison and cheap copying, so it is embedded as `Nat`. -/
abbrev State := Nat

/-- Modelled from the spec: `State::default()` of the `statestack` module,
which is not under src/; the default (empty) lexer state. -/
def stateDefault : State := 0

/-- A scope stack, `type Scope = Vec<String>` (main.rs). -/
abbrev Scope := List String

/-- A line of text, embedded as its character sequence; `line.len()` and byte
slicing of the Rust code become `List.length` and `List.drop`. -/
abbrev Line := List Char

/-- `xi_core_lib::plugins::rpc::ScopeSpan`.  Rust's `end` field is named
`stop` because `end` is a Lean keyword. -/
structure ScopeSpan where
  start : Nat
  stop : Nat
  scope_id : Nat
  deriving DecidableEq, Repr

/-- Modelled from the spec: the pluggable `Parser` capability (§6; the
`parser` module is not under src/): `parse(line_suffix, state) ->
(prevlen, s0, len, s1)` and `get_scope_for_state(state) -> Scope`. -/
structure Parser where
  parse : Line → State → Nat × State × Nat × State
  get_scope_for_state : State → Scope

/-- Association-list embedding of the `HashMap<Scope, u32>` lookup used by
`ScopeTracker` (tracker.rs). -/
def assocLookup (s : Scope) : List (Scope × Nat) → Option Nat
  | [] => none
  | (k, v) :: rest => if k = s then some v else assocLookup s rest

/-- `tracker::ScopeTracker`: the scope interner's table and counter. -/
structure ScopeTracker where
  elements : List (Scope × Nat)
  next_id : Nat
  deriving DecidableEq, Repr

/-- `tracker::LookupResult`. -/
inductive LookupResult where
  | Existing (id : Nat)
  | New (id : Nat)
  deriving DecidableEq, Repr

/-- `ScopeTracker::lookup` (tracker.rs); the mutation of `self` is returned as
the second component. -/
def ScopeTracker.lookup (t : ScopeTracker) (scope : Scope) :
    LookupResult × ScopeTracker :=
  match assocLookup scope t.elements with
  | some id => (LookupResult.Existing id, t)
  | none =>
    let old_id := t.next_id
    (LookupResult.New old_id,
      { elements := (scope, old_id) :: t.elements, next_id := old_id + 1 })

/-- `identifier_for_scope` (main.rs); the mutated `tracker` and `new_scopes`
are returned alongside the id. -/
def identifier_for_scope (tracker : ScopeTracker) (new_scopes : List Scope)
    (scope : Scope) : Nat × ScopeTracker × List Scope :=
  match ScopeTracker.lookup tracker scope with
  | (LookupResult.Existing id, t) => (id, t, new_scopes)
  | (LookupResult.New id, t) => (id, t, new_scopes ++ [scope])

/-- Modelled from the spec: the plain-text no-op parser
(`language/plaintext.rs` is not under src/): it consumes the whole remaining
suffix as unscoped text and never changes the state. -/
def PlaintextParser : Parser :=
  { parse := fun suffix st => (0, st, suffix.length, st),
    get_scope_for_state := fun _ => [] }

/-- `ViewState` (main.rs): the driver's per-view session state. -/
structure ViewState where
  current_language : String
  parser : Parser
  tracker : ScopeTracker
  offset : Nat
  initial_state : State
  spans_start : Nat
  spans : List ScopeSpan
  new_scopes : List Scope

/-- `ViewState::new` (main.rs). -/
def ViewState.new : ViewState :=
  { current_language := "Plain Text", parser := PlaintextParser,
    tracker := { elements := [], next_id := 0 }, offset := 0,
    initial_state := stateDefault, spans_start := 0, spans := [],
    new_scopes := [] }

/-- Modelled from the spec: the host calls the driver makes (§6), recorded as
an event log so that theorems can speak about which calls happened. -/
inductive HostEvent where
  | set (line : Nat) (state : State)
  | update_frontier (line : Nat)
  | close_frontier
  | schedule_idle
  | add_scopes (scopes : List Scope)
  | update_spans (start len : Nat) (spans : List ScopeSpan)
  | cache_clear
  deriving DecidableEq, Repr

/-- Modelled from the spec: the host environment of one open view (§6).
`resolve` is `get_prev`, `lines` is `get_line`, `cache` is the per-line state
cache (`get`/`set`/`clear`), `pending` gives the answers of successive
`request_is_pending` calls, and `events` logs every outward host call. -/
structure HostView where
  frontier : Option Nat
  resolve : Nat → Nat × Nat × State
  lines : Nat → Except Unit Line
  cache : Nat → Option State
  language_id : String
  pending : Nat → Bool
  pending_counter : Nat
  events : List HostEvent

/-- Host call `get_prev` (resolve a possibly stale frontier line). -/
def HostView.get_prev (v : HostView) (n : Nat) : Nat × Nat × State := v.resolve n

/-- Host call `get_line`. -/
def HostView.get_line (v : HostView) (n : Nat) : Except Unit Line := v.lines n

/-- Host call `get` on the line-state cache. -/
def HostView.get (v : HostView) (n : Nat) : Option State := v.cache n

/-- Host call `set` on the line-state cache. -/
def HostView.set (v : HostView) (n : Nat) (s : State) : HostView :=
  { v with cache := fun m => if m = n then some s else v.cache m,
           events := v.events ++ [HostEvent.set n s] }

/-- Host call `update_frontier`: advances the scan cursor. -/
def HostView.update_frontier (v : HostView) (n : Nat) : HostView :=
  { v with frontier := some n,
           events := v.events ++ [HostEvent.update_frontier n] }

/-- Host call `close_frontier`: terminates the scan cursor. -/
def HostView.close_frontier (v : HostView) : HostView :=
  { v with frontier := none, events := v.events ++ [HostEvent.close_frontier] }

/-- Host call `schedule_idle`. -/
def HostView.schedule_idle (v : HostView) : HostView :=
  { v with events := v.events ++ [HostEvent.schedule_idle] }

/-- Host call `add_scopes`: registers newly interned scopes with the renderer. -/
def HostView.add_scopes (v : HostView) (s : List Scope) : HostView :=
  { v with events := v.events ++ [HostEvent.add_scopes s] }

/-- Host call `update_spans`: delivers one span batch. -/
def HostView.update_spans (v : HostView) (start len : Nat)
    (spans : List ScopeSpan) : HostView :=
  { v with events := v.events ++ [HostEvent.update_spans start len spans] }

/-- Host call `clear` on the line-state cache. -/
def HostView.cache_clear (v : HostView) : HostView :=
  { v with cache := fun _ => none, events := v.events ++ [HostEvent.cache_clear] }

/-- Host call `request_is_pending`; successive calls consume successive
entries of `pending`. -/
def HostView.request_is_pending (v : HostView) : Bool × HostView :=
  (v.pending v.pending_counter, { v with pending_counter := v.pending_counter + 1 })

/-- The mutable locals of the `while i < line.len()` loop of
`ViewState::compute_syntax` (main.rs), together with the `ViewState` fields it
mutates. -/
structure SynState where
  i : Nat
  state : State
  tracker : ScopeTracker
  spans : List ScopeSpan
  new_scopes : List Scope
  deriving DecidableEq, Repr

/-- One iteration of the tokenization loop body of `ViewState::compute_syntax`
(main.rs lines 236-268): one `parser.parse` call, the optional gap span (whose
scope is looked up for `initial_state`), and the optional token span (whose
scope is looked up for `s0`). -/
def compute_syntax_step (p : Parser) (line : Line) (offset spans_start : Nat)
    (initial_state : State) (σ : SynState) : SynState :=
  let r := p.parse (line.drop σ.i) σ.state
  let prevlen := r.1
  let s0 := r.2.1
  let len := r.2.2.1
  let s1 := r.2.2.2
  let σ₁ :=
    if 0 < prevlen then
      let scopes := p.get_scope_for_state initial_state
      if scopes = [] then { σ with i := σ.i + prevlen }
      else
        let q := identifier_for_scope σ.tracker σ.new_scopes scopes
        let start := offset - spans_start + σ.i
        { σ with tracker := q.2.1, new_scopes := q.2.2,
                 spans := σ.spans ++
                   [{ start := start, stop := start + prevlen, scope_id := q.1 }],
                 i := σ.i + prevlen }
    else σ
  let scopes := p.get_scope_for_state s0
  let σ₂ :=
    if scopes = [] then σ₁
    else
      let q := identifier_for_scope σ₁.tracker σ₁.new_scopes scopes
      let start := offset - spans_start + σ₁.i
      { σ₁ with tracker := q.2.1, new_scopes := q.2.2,
                spans := σ₁.spans ++
                  [{ start := start, stop := start + len, scope_id := q.1 }] }
  { σ₂ with i := σ₂.i + len, state := s1 }

/-- The fuel-indexed tokenization loop of `ViewState::compute_syntax`; `none`
means the fuel ran out, i.e. the Rust loop would still be running. -/
def compute_syntax_loop (p : Parser) (line : Line) (offset spans_start : Nat)
    (initial_state : State) : Nat → SynState → Option SynState
  | 0, σ => if σ.i < line.length then none else some σ
  | fuel + 1, σ =>
    if σ.i < line.length then
      compute_syntax_loop p line offset spans_start initial_state fuel
        (compute_syntax_step p line offset spans_start initial_state σ)
    else some σ

/-- `ViewState::compute_syntax` (main.rs): run the loop from cursor `0` and
state `initial_state`, with fuel `line.length`, which suffices whenever the
parser makes progress; returns the end-of-line state and the updated driver
state. -/
def compute_syntax (vs : ViewState) (line : Line) : Option (State × ViewState) :=
  match compute_syntax_loop vs.parser line vs.offset vs.spans_start
      vs.initial_state line.length
      { i := 0, state := vs.initial_state, tracker := vs.tracker,
        spans := vs.spans, new_scopes := vs.new_scopes } with
  | none => none
  | some σ =>
    some (σ.state,
      { vs with tracker := σ.tracker, spans := σ.spans,
                new_scopes := σ.new_scopes })

/-- `ViewState::flush_spans` (main.rs). -/
def flush_spans (vs : ViewState) (view : HostView) : ViewState × HostView :=
  let p₁ :=
    if vs.new_scopes = [] then (vs, view)
    else ({ vs with new_scopes := [] }, HostView.add_scopes view vs.new_scopes)
  let p₂ :=
    if p₁.1.spans_start = p₁.1.offset then p₁
    else ({ p₁.1 with spans := [] },
          HostView.update_spans p₁.2 p₁.1.spans_start
            (p₁.1.offset - p₁.1.spans_start) p₁.1.spans)
  ({ p₂.1 with spans_start := p₂.1.offset }, p₂.2)

/-- The stale-frontier resynchronisation block at the top of
`ViewState::highlight_one_line` (main.rs lines 188-192): on an offset mismatch
flush the batch, then adopt the resolved offset. -/
def resyncOffset (vs : ViewState) (view : HostView) (offset : Nat) :
    ViewState × HostView :=
  if offset = vs.offset then (vs, view)
  else
    let q := flush_spans vs view
    ({ q.1 with offset := offset, spans_start := offset }, q.2)

/-- The line-fetch and tokenization block of `ViewState::highlight_one_line`
(main.rs lines 194-207): computes the `new_frontier` candidate; the outer
`none` means `compute_syntax` diverged. -/
def tokenizeLine (vs : ViewState) (view : HostView) (line_num : Nat) :
    Option (Option (State × Nat) × ViewState) :=
  match HostView.get_line view line_num with
  | Except.ok line =>
    if line = [] then some (none, vs)
    else
      match compute_syntax vs line with
      | none => none
      | some (new_state, vs₁) =>
        let vs₂ := { vs₁ with offset := vs₁.offset + line.length }
        if line.getLast? = some '\n' then
          some (some (new_state, line_num + 1), vs₂)
        else some (none, vs₂)
  | Except.error _ => some (none, vs)

/-- The convergence check and frontier bookkeeping of
`ViewState::highlight_one_line` (main.rs lines 209-227). -/
def hlAfterResync (vs : ViewState) (view : HostView) (line_num : Nat) :
    Option (Bool × ViewState × HostView) :=
  match tokenizeLine vs view line_num with
  | none => none
  | some (new_frontier, vs₁) =>
    let converged :=
      match new_frontier with
      | some (new_state, new_line_num) =>
        match HostView.get view new_line_num with
        | some old_state => old_state == new_state
        | none => false
      | none => false
    if converged = false then
      match new_frontier with
      | some (new_state, new_line_num) =>
        some (true, vs₁,
          HostView.update_frontier (HostView.set view new_line_num new_state)
            new_line_num)
      | none => some (false, vs₁, HostView.close_frontier view)
    else some (false, vs₁, HostView.close_frontier view)

/-- `ViewState::highlight_one_line` (main.rs); `none` means the tokenization
loop diverged.  `true` means "more work available". -/
def highlight_one_line (vs : ViewState) (view : HostView) :
    Option (Bool × ViewState × HostView) :=
  match view.frontier with
  | none => some (false, vs, view)
  | some line_num =>
    let r := HostView.get_prev view line_num
    let q := resyncOffset vs view r.2.1
    hlAfterResync q.1 q.2 r.1

/-- `ViewState::do_highlighting` (main.rs); `select` stands for the
language-to-parser `match` whose arms (`RustParser`, `PlaintextParser`) live
in the `language` module, which is not under src/. -/
def do_highlighting (select : String → Parser) (vs : ViewState)
    (view : HostView) : ViewState × HostView :=
  let vs₁ := { vs with offset := 0, spans_start := 0,
                       initial_state := stateDefault, spans := [],
                       new_scopes := [] }
  let view₁ := HostView.cache_clear view
  let vs₂ :=
    if view₁.language_id = vs₁.current_language then vs₁
    else { vs₁ with current_language := view₁.language_id,
                    parser := select view₁.language_id }
  (vs₂, HostView.schedule_idle view₁)

/-- `LINES_PER_RPC` (main.rs). -/
def LINES_PER_RPC : Nat := 50

/-- The `for _ in 0..LINES_PER_RPC` loop of `LangPlugin::idle` (main.rs); the
first result component counts the `highlight_one_line` invocations (a ghost
output recorded for the specification; it does not influence control flow).
The second component is `true` exactly when the pass returned because
`highlight_one_line` reported "no more work". -/
def idle_loop : Nat → ViewState → HostView →
    Option (Nat × Bool × ViewState × HostView)
  | 0, vs, view =>
    let q := flush_spans vs view
    some (0, false, q.1, HostView.schedule_idle q.2)
  | fuel + 1, vs, view =>
    match highlight_one_line vs view with
    | none => none
    | some (more, vs₁, view₁) =>
      if more = false then
        let q := flush_spans vs₁ view₁
        some (1, true, q.1, q.2)
      else
        match HostView.request_is_pending view₁ with
        | (true, view₂) =>
          let q := flush_spans vs₁ view₂
          some (1, false, q.1, HostView.schedule_idle q.2)
        | (false, view₂) =>
          match idle_loop fuel vs₁ view₂ with
          | none => none
          | some (k, early, vs₂, view₃) => some (k + 1, early, vs₂, view₃)

/-- `LangPlugin::idle` (main.rs) for one view. -/
def LangPlugin.idle (vs : ViewState) (view : HostView) :
    Option (Nat × Bool × ViewState × HostView) :=
  idle_loop LINES_PER_RPC vs view

/-- Modelled from the spec: well-behavedness contract of the external Parser
capability (§4.2, §6; the grammar implementations are not under src/): on a
non-empty suffix the parser makes progress, stays inside the suffix it was
given, and reports a positive token length whenever the token state `s0` has a
non-empty scope. -/
def ParserOK (p : Parser) : Prop :=
  ∀ suffix st, suffix ≠ [] →
    1 ≤ (p.parse suffix st).1 + (p.parse suffix st).2.2.1 ∧
    (p.parse suffix st).1 + (p.parse suffix st).2.2.1 ≤ suffix.length ∧
    (p.get_scope_for_state (p.parse suffix st).2.1 ≠ [] →
      1 ≤ (p.parse suffix st).2.2.1)

/-- Spans sorted by start and pairwise non-overlapping: each span ends no
later than the next one starts. -/
def spansChain (l : List ScopeSpan) : Prop :=
  List.Chain' (fun a b => a.stop ≤ b.start) l

/-- Interner well-formedness: every stored id is below the counter, and no id
is stored for two different scopes. -/
def ScopeTracker.WF (t : ScopeTracker) : Prop :=
  (∀ p ∈ t.elements, p.2 < t.next_id) ∧
  (∀ s₁ s₂ i, (s₁, i) ∈ t.elements → (s₂, i) ∈ t.elements → s₁ = s₂)

/-! ### Concrete instances used by witnesses and counterexamples -/

/-- Concrete interner with one scope interned and the id counter at 7. -/
def c3tracker : ScopeTracker := { elements := [(["a"], 6)], next_id := 7 }

/-- Concrete driver state for the C3 counterexample. -/
def c3vs : ViewState := { ViewState.new with tracker := c3tracker }

/-- Concrete host view whose language differs from the driver's current one. -/
def c3view : HostView :=
  { frontier := none, resolve := fun _ => (0, 0, 0),
    lines := fun _ => Except.error (), cache := fun _ => none,
    language_id := "Rust", pending := fun _ => false, pending_counter := 0,
    events := [] }

/-- Concrete language-to-parser selection used with `do_highlighting`. -/
def c3select : String → Parser := fun _ => PlaintextParser

/-- Concrete parser for the C4 witness: always reports a gap of length 1 and
a token of length 1 whose state is 50; state 3 and state 50 carry different
scopes. -/
def c4parser : Parser :=
  { parse := fun _ st => (1, 50, 1, st),
    get_scope_for_state := fun s =>
      if s = 3 then ["gap"] else if s = 50 then ["tok"] else [] }

/-- Concrete loop state for the C4 witness. -/
def c4sigma : SynState :=
  { i := 0, state := 0, tracker := { elements := [], next_id := 0 },
    spans := [], new_scopes := [] }

/-- Events that a batch flush may emit (`add_scopes` and `update_spans`);
used to state that resynchronisation emits nothing else. -/
def isBatchEvent : HostEvent → Bool
  | HostEvent.add_scopes _ => true
  | HostEvent.update_spans _ _ _ => true
  | _ => false

/-- Concrete driver state at offset 0 with the plaintext parser. -/
def c1vs : ViewState := ViewState.new

/-- Concrete host view: one line `"x\n"` at offset 0, with its end-of-line
state already cached for line 1, so the scan converges at once. -/
def c1view : HostView :=
  { frontier := some 0, resolve := fun _ => (0, 0, 0),
    lines := fun n => if n = 0 then Except.ok ['x', '\n'] else Except.ok [],
    cache := fun n => if n = 1 then some 0 else none,
    language_id := "Plain Text", pending := fun _ => false,
    pending_counter := 0, events := [] }

/-- The driver state after tokenizing the single line of `c1view`. -/
def c1vs2 : ViewState := { c1vs with offset := 2 }

/-- Concrete host view whose resolved frontier offset (5) disagrees with the
driver's tracked offset (0). -/
def c7view : HostView := { c1view with resolve := fun _ => (0, 5, 0) }

/-- Accumulated-batch invariant for the span buffer at cursor position `j`
(buffer coordinates are relative to `spans_start`, so `base` is
`offset - spans_start`): all spans are non-empty, sorted and non-overlapping,
end at or before `base + j`, and every span not inherited from `orig` starts
at or after `base`. -/
def SpanAcc (base : Nat) (orig : List ScopeSpan) (spans : List ScopeSpan)
    (j : Nat) : Prop :=
  (∀ sp ∈ spans, sp.start < sp.stop) ∧ spansChain spans ∧
  (∀ sp ∈ spans, sp.stop ≤ base + j) ∧
  (∀ sp ∈ spans, sp ∈ orig ∨ base ≤ sp.start)

/-- Concrete parser for the C8 witness: a gapless parser that consumes the
whole suffix as one token whose scope is always `["k"]`. -/
def c8parser : Parser :=
  { parse := fun suffix st => (0, st, suffix.length, st),
    get_scope_for_state := fun _ => ["k"] }

/-- Concrete driver state for the C8 witness. -/
def c8vs : ViewState := { ViewState.new with parser := c8parser }

/-- The interner contents after tokenizing `['a', 'b']` from `c8vs`. -/
def c8tracker : ScopeTracker := { elements := [(["k"], 0)], next_id := 1 }

/-- The driver state after tokenizing `['a', 'b']` from `c8vs`. -/
def c8vs' : ViewState :=
  { c8vs with
    tracker := c8tracker,
    spans := [{ start := 0, stop := 2, scope_id := 0 }],
    new_scopes := [["k"]] }

/-- Concrete parser that never makes progress (`prevlen = len = 0`). -/
def c10stuck : Parser :=
  { parse := fun _ st => (0, st, 0, st), get_scope_for_state := fun _ => [] }

/-- Concrete driver state carrying the stuck parser. -/
def c10vsB : ViewState := { ViewState.new with parser := c10stuck }

/-- Concrete parser for the C2 counterexample: it never changes the lexer
state, and only state 5 carries a (non-empty) scope. -/
def c2parser : Parser :=
  { parse := fun suffix st => (0, st, suffix.length, st),
    get_scope_for_state := fun s => if s = 5 then ["k"] else [] }

/-- Concrete driver state for the C2 counterexample (initial_state = 0). -/
def c2vs : ViewState := { ViewState.new with parser := c2parser }

/-- Concrete host view for the C2 counterexample: the host resolves the
frontier line's carried-over state to 5. -/
def c2view : HostView :=
  { frontier := some 0, resolve := fun _ => (0, 0, 5),
    lines := fun n => if n = 0 then Except.ok ['a', '\n'] else Except.ok [],
    cache := fun _ => none, language_id := "Plain Text",
    pending := fun _ => false, pending_counter := 0, events := [] }

/-! ### Theorems -/

theorem assocLookup_some_mem {s : Scope} {i : Nat} :
    ∀ {l : List (Scope × Nat)}, assocLookup s l = some i → (s, i) ∈ l := by
  intro l
  induction l with
  | nil => intro h; simp [assocLookup] at h
  | cons p rest ih =>
    obtain ⟨k, v⟩ := p
    intro h
    simp only [assocLookup] at h
    by_cases hk : k = s
    · subst hk
      simp only [if_pos rfl] at h
      cases h
      exact List.mem_cons_self _ _
    · simp only [if_neg hk] at h
      exact List.mem_cons_of_mem _ (ih h)

/-- Behavioural characterisation of `flush_spans`, shared by several claim
proofs: which driver fields it resets, which host events it appends, and
which host fields it leaves alone. -/
theorem flush_spec (vs : ViewState) (view : HostView) :
    (flush_spans vs view).1.offset = vs.offset ∧
    (flush_spans vs view).1.spans_start = vs.offset ∧
    (flush_spans vs view).1.new_scopes = [] ∧
    (flush_spans vs view).1.spans =
      (if vs.spans_start = vs.offset then vs.spans else []) ∧
    (flush_spans vs view).1.tracker = vs.tracker ∧
    (flush_spans vs view).1.initial_state = vs.initial_state ∧
    (flush_spans vs view).1.current_language = vs.current_language ∧
    (flush_spans vs view).1.parser = vs.parser ∧
    (flush_spans vs view).2.events = view.events
      ++ (if vs.new_scopes = [] then [] else [HostEvent.add_scopes vs.new_scopes])
      ++ (if vs.spans_start = vs.offset then []
          else [HostEvent.update_spans vs.spans_start
                  (vs.offset - vs.spans_start) vs.spans]) ∧
    (flush_spans vs view).2.frontier = view.frontier ∧
    (flush_spans vs view).2.cache = view.cache ∧
    (flush_spans vs view).2.resolve = view.resolve ∧
    (flush_spans vs view).2.lines = view.lines ∧
    (flush_spans vs view).2.language_id = view.language_id ∧
    (flush_spans vs view).2.pending = view.pending ∧
    (flush_spans vs view).2.pending_counter = view.pending_counter := by
  unfold flush_spans HostView.add_scopes HostView.update_spans
  by_cases h1 : vs.new_scopes = [] <;> by_cases h2 : vs.spans_start = vs.offset <;>
    simp [h1, h2, List.append_assoc]

/-- C5: `ScopeTracker::lookup` (via `identifier_for_scope`) returns the
existing id without changing the interner or reporting the scope when the
scope is present; otherwise it hands out the current `next_id`, records the
mapping, bumps the counter by one and reports the scope as new; a repeated
lookup returns the same id with no further change or report, and two distinct
scopes receive distinct ids. -/
theorem c5_interner_contract (t : ScopeTracker) (ns : List Scope) (a b : Scope)
    (hwf : ScopeTracker.WF t) :
    (∀ i, assocLookup a t.elements = some i →
        identifier_for_scope t ns a = (i, t, ns)) ∧
    (assocLookup a t.elements = none →
        identifier_for_scope t ns a =
          (t.next_id,
           { elements := (a, t.next_id) :: t.elements,
             next_id := t.next_id + 1 },
           ns ++ [a])) ∧
    ((identifier_for_scope (identifier_for_scope t ns a).2.1
        (identifier_for_scope t ns a).2.2 a).1 =
      (identifier_for_scope t ns a).1) ∧
    ((identifier_for_scope (identifier_for_scope t ns a).2.1
        (identifier_for_scope t ns a).2.2 a).2 =
      ((identifier_for_scope t ns a).2.1, (identifier_for_scope t ns a).2.2)) ∧
    (a ≠ b →
      (identifier_for_scope (identifier_for_scope t ns a).2.1
        (identifier_for_scope t ns a).2.2 b).1 ≠
        (identifier_for_scope t ns a).1) := by
  obtain ⟨hbound, hinj⟩ := hwf
  rcases ha : assocLookup a t.elements with _ | ia
  · -- `a` is new: it gets `next_id`, is recorded and reported.
    have hfst : identifier_for_scope t ns a =
        (t.next_id,
         { elements := (a, t.next_id) :: t.elements, next_id := t.next_id + 1 },
         ns ++ [a]) := by
      simp [identifier_for_scope, ScopeTracker.lookup, ha]
    have hself : assocLookup a ((a, t.next_id) :: t.elements) = some t.next_id := by
      simp [assocLookup]
    refine ⟨?_, fun _ => hfst, ?_, ?_, ?_⟩
    · intro i hi; exact Option.noConfusion hi
    · rw [hfst]
      simp [identifier_for_scope, ScopeTracker.lookup, hself]
    · rw [hfst]
      simp [identifier_for_scope, ScopeTracker.lookup, hself]
    · intro hab
      rw [hfst]
      have hskip : assocLookup b ((a, t.next_id) :: t.elements) =
          assocLookup b t.elements := by
        simp [assocLookup, hab]
      rcases hb : assocLookup b t.elements with _ | ib
      · simp [identifier_for_scope, ScopeTracker.lookup, hskip, hb]
      · have hmem := assocLookup_some_mem hb
        have : ib < t.next_id := hbound _ hmem
        simp only [identifier_for_scope, ScopeTracker.lookup, hskip, hb]
        omega
  · -- `a` is present: the stored id comes back and nothing changes.
    have hfst : identifier_for_scope t ns a = (ia, t, ns) := by
      simp [identifier_for_scope, ScopeTracker.lookup, ha]
    refine ⟨?_, ?_, ?_, ?_, ?_⟩
    · intro i hi
      obtain rfl : ia = i := Option.some.inj hi
      exact hfst
    · intro h; exact Option.noConfusion h
    · rw [hfst]; simp [identifier_for_scope, ScopeTracker.lookup, ha]
    · rw [hfst]; simp [identifier_for_scope, ScopeTracker.lookup, ha]
    · intro hab
      rw [hfst]
      rcases hb : assocLookup b t.elements with _ | ib
      · have hmem := assocLookup_some_mem ha
        have : ia < t.next_id := hbound _ hmem
        simp only [identifier_for_scope, ScopeTracker.lookup, hb]
        omega
      · have hma := assocLookup_some_mem ha
        have hmb := assocLookup_some_mem hb
        simp only [identifier_for_scope, ScopeTracker.lookup, hb]
        intro hcontra
        exact hab (hinj a b ia hma (by rw [show ib = ia from hcontra] at hmb; exact hmb))

/-- The concrete interner `c3tracker` is well formed. -/
theorem c3tracker_wf : ScopeTracker.WF c3tracker := by
  constructor
  · intro p hp
    simp only [c3tracker, List.mem_singleton] at hp
    subst hp
    decide
  · intro s₁ s₂ i h1 h2
    simp only [c3tracker, List.mem_singleton, Prod.mk.injEq] at h1 h2
    rw [h1.1, h2.1]

/-- C5 witness: the contract evaluated on a concrete interner. -/
theorem c5_interner_contract_witness :
    (∀ i, assocLookup ["x"] c3tracker.elements = some i →
        identifier_for_scope c3tracker [] ["x"] = (i, c3tracker, [])) ∧
    (assocLookup ["x"] c3tracker.elements = none →
        identifier_for_scope c3tracker [] ["x"] =
          (c3tracker.next_id,
           { elements := (["x"], c3tracker.next_id) :: c3tracker.elements,
             next_id := c3tracker.next_id + 1 },
           [] ++ [["x"]])) ∧
    ((identifier_for_scope (identifier_for_scope c3tracker [] ["x"]).2.1
        (identifier_for_scope c3tracker [] ["x"]).2.2 ["x"]).1 =
      (identifier_for_scope c3tracker [] ["x"]).1) ∧
    ((identifier_for_scope (identifier_for_scope c3tracker [] ["x"]).2.1
        (identifier_for_scope c3tracker [] ["x"]).2.2 ["x"]).2 =
      ((identifier_for_scope c3tracker [] ["x"]).2.1,
       (identifier_for_scope c3tracker [] ["x"]).2.2)) ∧
    (["x"] ≠ ["a"] →
      (identifier_for_scope (identifier_for_scope c3tracker [] ["x"]).2.1
        (identifier_for_scope c3tracker [] ["x"]).2.2 ["a"]).1 ≠
        (identifier_for_scope c3tracker [] ["x"]).1) :=
  c5_interner_contract c3tracker [] ["x"] ["a"] c3tracker_wf

/-- C6: `flush_spans` reports the pending scopes iff there are any, reports
the spans for exactly the byte range `[spans_start, offset)` iff that range is
non-empty, clears what it reported, and always leaves `spans_start = offset`. -/
theorem c6_flush_spans_contract (vs : ViewState) (view : HostView) :
    (flush_spans vs view).1.spans_start = vs.offset ∧
    (flush_spans vs view).1.offset = vs.offset ∧
    (flush_spans vs view).1.new_scopes = [] ∧
    (flush_spans vs view).1.spans =
      (if vs.spans_start = vs.offset then vs.spans else []) ∧
    (flush_spans vs view).2.events = view.events
      ++ (if vs.new_scopes = [] then [] else [HostEvent.add_scopes vs.new_scopes])
      ++ (if vs.spans_start = vs.offset then []
          else [HostEvent.update_spans vs.spans_start
                  (vs.offset - vs.spans_start) vs.spans]) := by
  obtain ⟨h1, h2, h3, h4, _, _, _, _, h9, _⟩ := flush_spec vs view
  exact ⟨h2, h1, h3, h4, h9⟩

/-- C3 counterexample: switching the language via `do_highlighting` does not
reset the `ScopeTracker` — with the counter previously at 7, the first scope
interned after the switch receives id 7, not 0. -/
theorem c3_counterexample :
    c3view.language_id ≠ c3vs.current_language ∧
    (do_highlighting c3select c3vs c3view).1.tracker = c3tracker ∧
    (ScopeTracker.lookup (do_highlighting c3select c3vs c3view).1.tracker
        ["b"]).1 = LookupResult.New 7 ∧
    LookupResult.New 7 ≠ LookupResult.New 0 := by
  refine ⟨by decide, by decide, by decide, by decide⟩

/-- C3 (amended): `do_highlighting` resets the driver's offset, spans_start,
initial_state and span/scope buffers, clears the host's per-line state cache
and schedules an idle resumption, and on a language change installs the parser
selected for the new language — but it leaves the Scope interner untouched, so
ids do not restart at 0. -/
theorem c3_amended_reset (select : String → Parser) (vs : ViewState)
    (view : HostView) :
    (do_highlighting select vs view).1.offset = 0 ∧
    (do_highlighting select vs view).1.spans_start = 0 ∧
    (do_highlighting select vs view).1.initial_state = stateDefault ∧
    (do_highlighting select vs view).1.spans = [] ∧
    (do_highlighting select vs view).1.new_scopes = [] ∧
    (do_highlighting select vs view).1.tracker = vs.tracker ∧
    (∀ n, (do_highlighting select vs view).2.cache n = none) ∧
    (do_highlighting select vs view).2.events =
      view.events ++ [HostEvent.cache_clear, HostEvent.schedule_idle] ∧
    (view.language_id ≠ vs.current_language →
      (do_highlighting select vs view).1.current_language = view.language_id ∧
      (do_highlighting select vs view).1.parser = select view.language_id) := by
  unfold do_highlighting HostView.cache_clear HostView.schedule_idle
  by_cases h : view.language_id = vs.current_language <;>
    simp [h, List.append_assoc]

theorem mem_of_getLast?_eq {α : Type} {l : List α} {a : α}
    (h : l.getLast? = some a) : a ∈ l := by
  obtain ⟨hne, hx⟩ := List.mem_getLast?_eq_getLast (Option.mem_def.mpr h)
  rw [hx]
  exact List.getLast_mem hne

/-- C4: when the parser reports `prevlen > 0`, the gap span's scope id is the
one interned for the batch-initial state `initial_state` — not for the
per-iteration state `s0` the parser returned (which is universally quantified
here and does not occur in the gap span); the gap span is emitted only when
that scope is non-empty (otherwise every newly emitted span starts after the
gap), and the cursor advances past the gap either way. -/
theorem c4_gap_scope_from_initial_state (p : Parser) (line : Line)
    (offset spans_start : Nat) (initial_state : State) (σ : SynState)
    (prevlen len : Nat) (s0 s1 : State)
    (hp : p.parse (line.drop σ.i) σ.state = (prevlen, s0, len, s1))
    (hpos : 0 < prevlen) :
    (compute_syntax_step p line offset spans_start initial_state σ).i =
      σ.i + prevlen + len ∧
    (p.get_scope_for_state initial_state ≠ [] →
      (compute_syntax_step p line offset spans_start initial_state
          σ).spans[σ.spans.length]? =
        some { start := offset - spans_start + σ.i,
               stop := offset - spans_start + σ.i + prevlen,
               scope_id := (identifier_for_scope σ.tracker σ.new_scopes
                 (p.get_scope_for_state initial_state)).1 }) ∧
    (p.get_scope_for_state initial_state = [] →
      ∀ sp ∈ (compute_syntax_step p line offset spans_start initial_state
          σ).spans.drop σ.spans.length,
        sp.start = offset - spans_start + (σ.i + prevlen)) := by
  unfold compute_syntax_step
  rw [hp]
  by_cases hg : p.get_scope_for_state initial_state = []
  · by_cases ht : p.get_scope_for_state s0 = []
    · simp [hg, ht, hpos, List.drop_left]
    · simp [hg, ht, hpos, List.drop_left]
  · by_cases ht : p.get_scope_for_state s0 = []
    · refine ⟨by simp [hg, ht, hpos], fun _ => ?_, fun h => absurd h hg⟩
      simp only [hg, ht, hpos, if_pos, if_neg, ite_true, ite_false,
        reduceIte]
      simp [hpos, hg, List.getElem?_concat_length]
    · refine ⟨by simp [hg, ht, hpos], fun _ => ?_, fun h => absurd h hg⟩
      simp only [hpos, hg, ht, reduceIte, ite_false, if_neg]
      rw [List.append_assoc]
      rw [List.getElem?_append_right (Nat.le_refl _)]
      simp

/-- C4 witness: the gap-span behaviour evaluated on a concrete parser whose
gap state and token state carry different scopes. -/
theorem c4_gap_scope_witness :
    (compute_syntax_step c4parser ['a', 'b'] 10 4 3 c4sigma).i =
      0 + 1 + 1 ∧
    (Parser.get_scope_for_state c4parser 3 ≠ [] →
      (compute_syntax_step c4parser ['a', 'b'] 10 4 3
          c4sigma).spans[c4sigma.spans.length]? =
        some { start := 10 - 4 + 0, stop := 10 - 4 + 0 + 1,
               scope_id := (identifier_for_scope c4sigma.tracker
                 c4sigma.new_scopes (Parser.get_scope_for_state c4parser 3)).1 }) ∧
    (Parser.get_scope_for_state c4parser 3 = [] →
      ∀ sp ∈ (compute_syntax_step c4parser ['a', 'b'] 10 4 3
          c4sigma).spans.drop c4sigma.spans.length,
        sp.start = 10 - 4 + (0 + 1)) :=
  c4_gap_scope_from_initial_state c4parser ['a', 'b'] 10 4 3 c4sigma
    1 1 50 0 rfl (by decide)

/-- Flushing appends only batch events (`add_scopes`/`update_spans`) to the
host event log. -/
theorem flush_events_only (vs : ViewState) (view : HostView) :
    ∃ l, (flush_spans vs view).2.events = view.events ++ l ∧
      ∀ e ∈ l, isBatchEvent e = true := by
  obtain ⟨-, -, -, -, -, -, -, -, hev, -⟩ := flush_spec vs view
  refine ⟨_, by rw [hev, List.append_assoc], ?_⟩
  intro e he
  rcases List.mem_append.mp he with h1 | h1 <;> revert h1 <;> split <;>
    simp_all [isBatchEvent]

/-- Resynchronisation appends only batch events to the host event log. -/
theorem resync_events_only (vs : ViewState) (view : HostView) (off : Nat) :
    ∃ l, (resyncOffset vs view off).2.events = view.events ++ l ∧
      ∀ e ∈ l, isBatchEvent e = true := by
  unfold resyncOffset
  by_cases h : off = vs.offset
  · exact ⟨[], by simp [h], by simp⟩
  · obtain ⟨l, hl, hall⟩ := flush_events_only vs view
    exact ⟨l, by simp [h, hl], hall⟩

theorem isBatchEvent_ne (e : HostEvent) (h : isBatchEvent e = true) :
    (∀ n s, e ≠ HostEvent.set n s) ∧ (∀ n, e ≠ HostEvent.update_frontier n) ∧
    e ≠ HostEvent.close_frontier ∧ e ≠ HostEvent.schedule_idle := by
  cases e <;> simp_all [isBatchEvent]

/-- C1: when tokenizing the frontier line produces a next-frontier candidate
`(ns, nl)` and the host's cached state for line `nl` equals the freshly
computed end state `ns`, `highlight_one_line` stops: it returns `false`
("no more work"), calls `close_frontier`, and never calls `set` or
`update_frontier`. -/
theorem c1_convergence_stops (vs vs₁ vs₂ : ViewState) (view view₁ : HostView)
    (ln₀ nl : Nat) (ns : State)
    (hf : view.frontier = some ln₀)
    (hr : resyncOffset vs view (HostView.get_prev view ln₀).2.1 = (vs₁, view₁))
    (ht : tokenizeLine vs₁ view₁ (HostView.get_prev view ln₀).1 =
      some (some (ns, nl), vs₂))
    (hc : HostView.get view₁ nl = some ns) :
    highlight_one_line vs view =
      some (false, vs₂, HostView.close_frontier view₁) ∧
    HostEvent.close_frontier ∈
      (HostView.close_frontier view₁).events.drop view.events.length ∧
    ∀ e ∈ (HostView.close_frontier view₁).events.drop view.events.length,
      (∀ n s, e ≠ HostEvent.set n s) ∧ ∀ n, e ≠ HostEvent.update_frontier n := by
  have hmain : highlight_one_line vs view =
      some (false, vs₂, HostView.close_frontier view₁) := by
    simp only [highlight_one_line, hf]
    rw [hr]
    simp only [hlAfterResync, ht, hc]
    simp
  obtain ⟨l, hl, hall⟩ := resync_events_only vs view (HostView.get_prev view ln₀).2.1
  rw [hr] at hl
  have hl2 : view₁.events = view.events ++ l := hl
  have hev : (HostView.close_frontier view₁).events =
      view.events ++ (l ++ [HostEvent.close_frontier]) := by
    simp [HostView.close_frontier, hl2, List.append_assoc]
  have hdrop : (HostView.close_frontier view₁).events.drop view.events.length =
      l ++ [HostEvent.close_frontier] := by
    rw [hev, List.drop_left]
  refine ⟨hmain, ?_, ?_⟩
  · rw [hdrop]
    exact List.mem_append.mpr (Or.inr (List.mem_singleton.mpr rfl))
  · rw [hdrop]
    intro e he
    rcases List.mem_append.mp he with h1 | h1
    · obtain ⟨a, b, -, -⟩ := isBatchEvent_ne e (hall e h1)
      exact ⟨a, b⟩
    · rw [List.mem_singleton.mp h1]
      refine ⟨fun n s h => ?_, fun n h => ?_⟩ <;> cases h

/-- C1 witness: the convergence stop evaluated on a concrete one-line view. -/
theorem c1_convergence_stops_witness :
    highlight_one_line c1vs c1view =
      some (false, c1vs2, HostView.close_frontier c1view) ∧
    HostEvent.close_frontier ∈
      (HostView.close_frontier c1view).events.drop c1view.events.length ∧
    ∀ e ∈ (HostView.close_frontier c1view).events.drop c1view.events.length,
      (∀ n s, e ≠ HostEvent.set n s) ∧ ∀ n, e ≠ HostEvent.update_frontier n :=
  c1_convergence_stops c1vs c1vs c1vs2 c1view c1view 0 1 0 rfl rfl rfl rfl

/-- C7: with a frontier line present, `highlight_one_line` factors as
resynchronisation followed by line fetch/tokenization; when the resolved
offset matches the tracked offset the resynchronisation changes nothing, and
when it differs it first flushes the batch and then adopts the resolved
offset for both `offset` and `spans_start`, emitting only batch events. -/
theorem c7_resync_before_fetch (vs : ViewState) (view : HostView) (ln₀ : Nat)
    (hf : view.frontier = some ln₀) :
    highlight_one_line vs view =
      hlAfterResync (resyncOffset vs view (HostView.get_prev view ln₀).2.1).1
        (resyncOffset vs view (HostView.get_prev view ln₀).2.1).2
        (HostView.get_prev view ln₀).1 ∧
    ((HostView.get_prev view ln₀).2.1 = vs.offset →
      resyncOffset vs view (HostView.get_prev view ln₀).2.1 = (vs, view)) ∧
    ((HostView.get_prev view ln₀).2.1 ≠ vs.offset →
      resyncOffset vs view (HostView.get_prev view ln₀).2.1 =
        ({ (flush_spans vs view).1 with
            offset := (HostView.get_prev view ln₀).2.1,
            spans_start := (HostView.get_prev view ln₀).2.1 },
         (flush_spans vs view).2) ∧
      (resyncOffset vs view (HostView.get_prev view ln₀).2.1).1.offset =
        (HostView.get_prev view ln₀).2.1 ∧
      (resyncOffset vs view (HostView.get_prev view ln₀).2.1).1.spans_start =
        (HostView.get_prev view ln₀).2.1 ∧
      ∀ e ∈ (resyncOffset vs view
          (HostView.get_prev view ln₀).2.1).2.events.drop view.events.length,
        isBatchEvent e = true) := by
  refine ⟨by simp only [highlight_one_line, hf], fun h => by simp [resyncOffset, h],
    fun h => ?_⟩
  obtain ⟨l, hl, hall⟩ := resync_events_only vs view (HostView.get_prev view ln₀).2.1
  refine ⟨by simp [resyncOffset, h], by simp [resyncOffset, h],
    by simp [resyncOffset, h], ?_⟩
  rw [hl, List.drop_left]
  exact hall

/-- C7 witness: resynchronisation evaluated on a concrete view whose resolved
offset (5) disagrees with the driver's tracked offset (0). -/
theorem c7_resync_before_fetch_witness :
    highlight_one_line c1vs c7view =
      hlAfterResync (resyncOffset c1vs c7view (HostView.get_prev c7view 0).2.1).1
        (resyncOffset c1vs c7view (HostView.get_prev c7view 0).2.1).2
        (HostView.get_prev c7view 0).1 ∧
    ((HostView.get_prev c7view 0).2.1 = c1vs.offset →
      resyncOffset c1vs c7view (HostView.get_prev c7view 0).2.1 = (c1vs, c7view)) ∧
    ((HostView.get_prev c7view 0).2.1 ≠ c1vs.offset →
      resyncOffset c1vs c7view (HostView.get_prev c7view 0).2.1 =
        ({ (flush_spans c1vs c7view).1 with
            offset := (HostView.get_prev c7view 0).2.1,
            spans_start := (HostView.get_prev c7view 0).2.1 },
         (flush_spans c1vs c7view).2) ∧
      (resyncOffset c1vs c7view (HostView.get_prev c7view 0).2.1).1.offset =
        (HostView.get_prev c7view 0).2.1 ∧
      (resyncOffset c1vs c7view (HostView.get_prev c7view 0).2.1).1.spans_start =
        (HostView.get_prev c7view 0).2.1 ∧
      ∀ e ∈ (resyncOffset c1vs c7view
          (HostView.get_prev c7view 0).2.1).2.events.drop c7view.events.length,
        isBatchEvent e = true) :=
  c7_resync_before_fetch c1vs c7view 0 rfl

/-- C3 witness: the amended reset behaviour evaluated on the concrete
language-switch instance. -/
theorem c3_amended_reset_witness :
    (do_highlighting c3select c3vs c3view).1.offset = 0 ∧
    (do_highlighting c3select c3vs c3view).1.spans_start = 0 ∧
    (do_highlighting c3select c3vs c3view).1.initial_state = stateDefault ∧
    (do_highlighting c3select c3vs c3view).1.spans = [] ∧
    (do_highlighting c3select c3vs c3view).1.new_scopes = [] ∧
    (do_highlighting c3select c3vs c3view).1.tracker = c3vs.tracker ∧
    (∀ n, (do_highlighting c3select c3vs c3view).2.cache n = none) ∧
    (do_highlighting c3select c3vs c3view).2.events =
      c3view.events ++ [HostEvent.cache_clear, HostEvent.schedule_idle] ∧
    (c3view.language_id ≠ c3vs.current_language →
      (do_highlighting c3select c3vs c3view).1.current_language =
        c3view.language_id ∧
      (do_highlighting c3select c3vs c3view).1.parser =
        c3select c3view.language_id) :=
  c3_amended_reset c3select c3vs c3view

/-- Cursor and state after one loop iteration: the cursor advances by
`prevlen + len` and the state becomes `s1`, whatever the scopes are. -/
theorem compute_syntax_step_i_state (p : Parser) (line : Line)
    (off ss : Nat) (ist : State) (σ : SynState) :
    (compute_syntax_step p line off ss ist σ).i =
      σ.i + (p.parse (line.drop σ.i) σ.state).1 +
        (p.parse (line.drop σ.i) σ.state).2.2.1 ∧
    (compute_syntax_step p line off ss ist σ).state =
      (p.parse (line.drop σ.i) σ.state).2.2.2 := by
  unfold compute_syntax_step
  by_cases hpos : 0 < (p.parse (line.drop σ.i) σ.state).1 <;>
    by_cases hg : p.get_scope_for_state ist = [] <;>
      by_cases ht :
        p.get_scope_for_state (p.parse (line.drop σ.i) σ.state).2.1 = [] <;>
        simp [hpos, hg, ht] <;> omega

/-- The loop returns immediately once the cursor has reached the line end. -/
theorem compute_syntax_loop_exits (p : Parser) (line : Line) (off ss : Nat)
    (ist : State) (fuel : Nat) (σ : SynState) (h : line.length ≤ σ.i) :
    compute_syntax_loop p line off ss ist fuel σ = some σ := by
  cases fuel <;> simp [compute_syntax_loop, Nat.not_lt.mpr h]

/-- The loop performs one step when the cursor is inside the line. -/
theorem compute_syntax_loop_step (p : Parser) (line : Line) (off ss : Nat)
    (ist : State) (fuel : Nat) (σ : SynState) (h : σ.i < line.length) :
    compute_syntax_loop p line off ss ist (fuel + 1) σ =
      compute_syntax_loop p line off ss ist fuel
        (compute_syntax_step p line off ss ist σ) := by
  simp [compute_syntax_loop, h]

theorem setResolve_flush (vs : ViewState) (view : HostView)
    (g : Nat → Nat × Nat × State) :
    flush_spans vs { view with resolve := g } =
      ((flush_spans vs view).1, { (flush_spans vs view).2 with resolve := g }) := by
  unfold flush_spans HostView.add_scopes HostView.update_spans
  by_cases h1 : vs.new_scopes = [] <;>
    by_cases h2 : vs.spans_start = vs.offset <;> simp [h1, h2]

theorem setResolve_resync (vs : ViewState) (view : HostView)
    (g : Nat → Nat × Nat × State) (off : Nat) :
    resyncOffset vs { view with resolve := g } off =
      ((resyncOffset vs view off).1,
       { (resyncOffset vs view off).2 with resolve := g }) := by
  unfold resyncOffset
  by_cases h : off = vs.offset
  · simp [h]
  · simp [h, setResolve_flush]

theorem setResolve_hlAfterResync (vs : ViewState) (view : HostView)
    (g : Nat → Nat × Nat × State) (ln : Nat) :
    hlAfterResync vs { view with resolve := g } ln =
      Option.map (fun t => (t.1, t.2.1, { t.2.2 with resolve := g }))
        (hlAfterResync vs view ln) := by
  have htok : tokenizeLine vs { view with resolve := g } ln =
      tokenizeLine vs view ln := rfl
  unfold hlAfterResync
  rw [htok]
  rcases tokenizeLine vs view ln with _ | ⟨nf, vs₁⟩
  · rfl
  · rcases nf with _ | ⟨ns, nl⟩
    · rfl
    · dsimp only
      have hget : HostView.get { view with resolve := g } nl =
          HostView.get view nl := rfl
      rw [hget]
      rcases HostView.get view nl with _ | os
      · rfl
      · dsimp only
        by_cases hos : os = ns
        · subst hos
          simp
          rfl
        · simp [hos]
          rfl

/-- C2 counterexample: a concrete run in which the host resolves the
previous-line state to 5 while the driver's `initial_state` is 0.  The driver
tokenizes from `initial_state` — it stores end state 0 (`set 1 0`) — whereas
tokenizing from the host-resolved state 5, as the claim requires, ends in
state 5.  So the tokenization does not begin with the state resolved by the
host. -/
theorem c2_counterexample :
    (HostView.get_prev c2view 0).2.2 = 5 ∧
    c2vs.initial_state = 0 ∧
    Option.map (fun t => t.2.2.events) (highlight_one_line c2vs c2view) =
      some [HostEvent.set 1 0, HostEvent.update_frontier 1] ∧
    Option.map SynState.state
      (compute_syntax_loop c2parser ['a', '\n'] 0 0 5 2
        { i := 0, state := 5, tracker := { elements := [], next_id := 0 },
          spans := [], new_scopes := [] }) = some 5 ∧
    HostEvent.set 1 0 ≠ HostEvent.set 1 5 := by
  refine ⟨rfl, rfl, rfl, rfl, by decide⟩

/-- C2 (amended): the tokenization of a line begins with the driver's
`initial_state` field, not with the state resolved by the host for the
frontier line: the resolved state is discarded, so replacing it by any other
value leaves the entire behaviour of `highlight_one_line` unchanged (first
conjunct); and `compute_syntax` hands the driver's `initial_state` to the
parser and returns the lexer state at the line's end (second conjunct, for a
parser call consuming the whole line). -/
theorem c2_amended_initial_state_used :
    (∀ (vs : ViewState) (view : HostView) (f : Nat → State),
      highlight_one_line vs
        { view with resolve := fun n =>
            ((view.resolve n).1, (view.resolve n).2.1, f n) } =
      Option.map (fun t => (t.1, t.2.1,
          { t.2.2 with resolve := fun n =>
              ((view.resolve n).1, (view.resolve n).2.1, f n) }))
        (highlight_one_line vs view)) ∧
    (∀ (vs : ViewState) (line : Line) (s0 s1 : State),
      line ≠ [] →
      Parser.parse vs.parser line vs.initial_state = (0, s0, line.length, s1) →
      ∃ vs', compute_syntax vs line = some (s1, vs')) := by
  constructor
  · intro vs view f
    set g : Nat → Nat × Nat × State := fun n =>
      ((view.resolve n).1, (view.resolve n).2.1, f n) with hg
    set w : HostView := { view with resolve := g } with hw
    unfold highlight_one_line
    have hfr : w.frontier = view.frontier := rfl
    rw [hfr]
    rcases hf : view.frontier with _ | ln₀
    · dsimp only [Option.map]
      try rw [hw, hf]
      try rfl
    · dsimp only [Option.map]
      have hgp : HostView.get_prev w ln₀ = g ln₀ := rfl
      have h1 : (g ln₀).1 = (HostView.get_prev view ln₀).1 := rfl
      have h2 : (g ln₀).2.1 = (HostView.get_prev view ln₀).2.1 := rfl
      rw [hgp, h1, h2, hw, setResolve_resync]
      try rw [setResolve_hlAfterResync]
      try rfl
  · intro vs line s0 s1 hne hp
    have hlen : 0 < line.length := List.length_pos.mpr hne
    have key := compute_syntax_step_i_state vs.parser line vs.offset
      vs.spans_start vs.initial_state
      { i := 0, state := vs.initial_state, tracker := vs.tracker,
        spans := vs.spans, new_scopes := vs.new_scopes }
    dsimp only at key
    rw [List.drop_zero, hp] at key
    dsimp only at key
    obtain ⟨k, hk⟩ : ∃ k, line.length = k + 1 := ⟨line.length - 1, by omega⟩
    unfold compute_syntax
    rw [hk, compute_syntax_loop_step _ _ _ _ _ _ _ (by exact hlen),
      compute_syntax_loop_exits _ _ _ _ _ _ _ (by rw [key.1]; omega)]
    exact ⟨_, by dsimp only; rw [key.2]⟩

/-- C2 witness for the amended claim: both conjuncts instantiated — the
resolved-state replacement on the concrete converged view, and the
single-call tokenization on a concrete one-line input. -/
theorem c2_amended_witness :
    (highlight_one_line c1vs
        { c1view with resolve := fun n =>
            ((c1view.resolve n).1, (c1view.resolve n).2.1, 9) } =
      Option.map (fun t => (t.1, t.2.1,
          { t.2.2 with resolve := fun n =>
              ((c1view.resolve n).1, (c1view.resolve n).2.1, 9) }))
        (highlight_one_line c1vs c1view)) ∧
    (∃ vs', compute_syntax c2vs ['a', '\n'] = some (0, vs')) :=
  ⟨c2_amended_initial_state_used.1 c1vs c1view (fun _ => 9),
   c2_amended_initial_state_used.2 c2vs ['a', '\n'] 0 0 (by decide) rfl⟩

/-- Under the progress contract, the loop terminates whenever the remaining
distance to the line end is at most the fuel. -/
theorem compute_syntax_loop_total (p : Parser) (line : Line) (off ss : Nat)
    (ist : State)
    (hprog : ∀ suffix st, suffix ≠ [] →
      1 ≤ (p.parse suffix st).1 + (p.parse suffix st).2.2.1) :
    ∀ fuel (σ : SynState), line.length - σ.i ≤ fuel →
      ∃ σ', compute_syntax_loop p line off ss ist fuel σ = some σ' := by
  intro fuel
  induction fuel with
  | zero =>
    intro σ h
    exact ⟨σ, compute_syntax_loop_exits _ _ _ _ _ _ _ (by omega)⟩
  | succ k ih =>
    intro σ h
    by_cases hlt : σ.i < line.length
    · rw [compute_syntax_loop_step _ _ _ _ _ _ _ hlt]
      apply ih
      have hne : line.drop σ.i ≠ [] := by
        intro hnil
        have := congrArg List.length hnil
        simp only [List.length_drop, List.length_nil] at this
        omega
      have hstep := (compute_syntax_step_i_state p line off ss ist σ).1
      have hp := hprog (line.drop σ.i) σ.state hne
      omega
    · exact ⟨σ, compute_syntax_loop_exits _ _ _ _ _ _ _ (by omega)⟩

/-- With a parser that never makes progress, the loop exhausts any fuel. -/
theorem compute_syntax_loop_stuck (p : Parser) (line : Line) (off ss : Nat)
    (ist : State)
    (hstuck : ∀ suffix st, (p.parse suffix st).1 = 0 ∧
      (p.parse suffix st).2.2.1 = 0) :
    ∀ fuel (σ : SynState), σ.i < line.length →
      compute_syntax_loop p line off ss ist fuel σ = none := by
  intro fuel
  induction fuel with
  | zero =>
    intro σ h
    simp [compute_syntax_loop, h]
  | succ k ih =>
    intro σ h
    rw [compute_syntax_loop_step _ _ _ _ _ _ _ h]
    apply ih
    have hstep := (compute_syntax_step_i_state p line off ss ist σ).1
    have h0 := hstuck (line.drop σ.i) σ.state
    omega

/-- C10: under the precondition that every parse call on a non-empty suffix
returns `prevlen + len ≥ 1`, the cursor strictly increases on each iteration
and the tokenization of any line terminates; with a parser returning
`prevlen = 0` and `len = 0` the cursor never moves and the loop makes no
progress (it exhausts any fuel on a non-empty line). -/
theorem c10_progress_and_termination (vs : ViewState) (line : Line) :
    ((∀ suffix st, suffix ≠ [] →
        1 ≤ (vs.parser.parse suffix st).1 + (vs.parser.parse suffix st).2.2.1) →
      (∀ σ : SynState, σ.i < line.length →
        σ.i < (compute_syntax_step vs.parser line vs.offset vs.spans_start
          vs.initial_state σ).i) ∧
      ∃ r, compute_syntax vs line = some r) ∧
    ((∀ suffix st, (vs.parser.parse suffix st).1 = 0 ∧
        (vs.parser.parse suffix st).2.2.1 = 0) →
      (∀ σ : SynState, (compute_syntax_step vs.parser line vs.offset
        vs.spans_start vs.initial_state σ).i = σ.i) ∧
      (line ≠ [] → compute_syntax vs line = none)) := by
  constructor
  · intro hprog
    constructor
    · intro σ hlt
      have hne : line.drop σ.i ≠ [] := by
        intro hnil
        have := congrArg List.length hnil
        simp only [List.length_drop, List.length_nil] at this
        omega
      have hstep := (compute_syntax_step_i_state vs.parser line vs.offset
        vs.spans_start vs.initial_state σ).1
      have hp := hprog (line.drop σ.i) σ.state hne
      omega
    · obtain ⟨σ', hσ'⟩ := compute_syntax_loop_total vs.parser line vs.offset
        vs.spans_start vs.initial_state hprog line.length
        { i := 0, state := vs.initial_state, tracker := vs.tracker,
          spans := vs.spans, new_scopes := vs.new_scopes } (by omega)
      unfold compute_syntax
      rw [hσ']
      exact ⟨_, rfl⟩
  · intro hstuck
    constructor
    · intro σ
      have hstep := (compute_syntax_step_i_state vs.parser line vs.offset
        vs.spans_start vs.initial_state σ).1
      have h0 := hstuck (line.drop σ.i) σ.state
      omega
    · intro hne
      have hpos : 0 < line.length := List.length_pos.mpr hne
      unfold compute_syntax
      rw [compute_syntax_loop_stuck vs.parser line vs.offset vs.spans_start
        vs.initial_state hstuck line.length
        { i := 0, state := vs.initial_state, tracker := vs.tracker,
          spans := vs.spans, new_scopes := vs.new_scopes } (by exact hpos)]

/-- The plaintext parser satisfies the progress precondition. -/
theorem plaintext_progress : ∀ (suffix : Line) (st : State), suffix ≠ [] →
    1 ≤ (Parser.parse PlaintextParser suffix st).1 +
      (Parser.parse PlaintextParser suffix st).2.2.1 := by
  intro s st h
  have := List.length_pos.mpr h
  simp only [PlaintextParser]
  omega

/-- The stuck parser always reports `prevlen = len = 0`. -/
theorem c10stuck_zero : ∀ (suffix : Line) (st : State),
    (Parser.parse c10stuck suffix st).1 = 0 ∧
    (Parser.parse c10stuck suffix st).2.2.1 = 0 :=
  fun _ _ => ⟨rfl, rfl⟩

/-- C10 witness: the plaintext parser terminates on a concrete line; the
stuck parser diverges on a concrete non-empty line. -/
theorem c10_progress_witness :
    (∃ r, compute_syntax c1vs ['a', '\n'] = some r) ∧
    compute_syntax c10vsB ['a'] = none :=
  ⟨((c10_progress_and_termination c1vs ['a', '\n']).1 plaintext_progress).2,
   ((c10_progress_and_termination c10vsB ['a']).2 c10stuck_zero).2 (by decide)⟩

theorem spansChain_append_one {l : List ScopeSpan} {sp : ScopeSpan}
    (hc : spansChain l) (hub : ∀ x ∈ l, x.stop ≤ sp.start) :
    spansChain (l ++ [sp]) := by
  rw [spansChain, List.chain'_append]
  refine ⟨hc, List.chain'_singleton _, ?_⟩
  intro x hx y hy
  have hxmem : x ∈ l := mem_of_getLast?_eq (Option.mem_def.mp hx)
  have hysp : sp = y := by simpa using hy
  rw [← hysp]
  exact hub x hxmem

/-- Emitting one span of positive length `d` at the cursor preserves the
accumulated-batch invariant and moves the cursor past it. -/
theorem spanAcc_emit {base j d sid : Nat} {orig spans : List ScopeSpan}
    (h : SpanAcc base orig spans j) (hd : 0 < d) :
    SpanAcc base orig
      (spans ++ [{ start := base + j, stop := base + j + d, scope_id := sid }])
      (j + d) := by
  obtain ⟨hv, hc, hub, hm⟩ := h
  refine ⟨?_, ?_, ?_, ?_⟩
  · intro sp hsp
    rcases List.mem_append.mp hsp with h1 | h1
    · exact hv sp h1
    · rw [List.mem_singleton.mp h1]
      simp only
      omega
  · refine spansChain_append_one hc ?_
    intro x hx
    simp only
    exact le_trans (hub x hx) (by omega)
  · intro sp hsp
    rcases List.mem_append.mp hsp with h1 | h1
    · exact le_trans (hub sp h1) (by omega)
    · rw [List.mem_singleton.mp h1]
      simp only
      omega
  · intro sp hsp
    rcases List.mem_append.mp hsp with h1 | h1
    · exact hm sp h1
    · rw [List.mem_singleton.mp h1]
      right
      simp only
      omega

/-- The accumulated-batch invariant is monotone in the cursor. -/
theorem spanAcc_mono {base j j' : Nat} {orig spans : List ScopeSpan}
    (h : SpanAcc base orig spans j) (hj : j ≤ j') :
    SpanAcc base orig spans j' := by
  obtain ⟨hv, hc, hub, hm⟩ := h
  exact ⟨hv, hc, fun sp hsp => le_trans (hub sp hsp) (by omega), hm⟩

/-- One iteration of a well-behaved parser preserves the span invariant. -/
theorem compute_syntax_step_inv (p : Parser) (line : Line) (off ss : Nat)
    (ist : State) (orig : List ScopeSpan) (σ : SynState)
    (hok : ParserOK p) (hlt : σ.i < line.length)
    (_h1 : σ.i ≤ line.length)
    (h2 : SpanAcc (off - ss) orig σ.spans σ.i) :
    (compute_syntax_step p line off ss ist σ).i ≤ line.length ∧
    SpanAcc (off - ss) orig (compute_syntax_step p line off ss ist σ).spans
      (compute_syntax_step p line off ss ist σ).i := by
  have hne : line.drop σ.i ≠ [] := by
    intro hnil
    have := congrArg List.length hnil
    simp only [List.length_drop, List.length_nil] at this
    omega
  obtain ⟨hprog, hbound, hlenpos⟩ := hok (line.drop σ.i) σ.state hne
  rw [List.length_drop] at hbound
  rcases hp : p.parse (line.drop σ.i) σ.state with ⟨prevlen, s0, rest⟩
  rcases rest with ⟨len, s1⟩
  rw [hp] at hprog hbound hlenpos
  dsimp only at hprog hbound hlenpos
  unfold compute_syntax_step
  rw [hp]
  by_cases hpos : 0 < prevlen
  · by_cases hg : p.get_scope_for_state ist = []
    · by_cases ht : p.get_scope_for_state s0 = []
      · simp only [hpos, hg, ht, if_pos, if_neg, ite_true, ite_false, reduceIte]
        exact ⟨by omega, spanAcc_mono h2 (by omega)⟩
      · simp only [hpos, hg, ht, if_pos, if_neg, ite_true, ite_false, reduceIte]
        refine ⟨by omega, ?_⟩
        have hlen1 : 0 < len := hlenpos ht
        exact spanAcc_emit (spanAcc_mono h2 (by omega)) hlen1
    · by_cases ht : p.get_scope_for_state s0 = []
      · simp only [hpos, hg, ht, if_pos, if_neg, ite_true, ite_false, reduceIte]
        refine ⟨by omega, ?_⟩
        exact spanAcc_mono (spanAcc_emit h2 hpos) (by omega)
      · simp only [hpos, hg, ht, if_pos, if_neg, ite_true, ite_false, reduceIte]
        refine ⟨by omega, ?_⟩
        have hlen1 : 0 < len := hlenpos ht
        exact spanAcc_emit (spanAcc_emit h2 hpos) hlen1
  · by_cases ht : p.get_scope_for_state s0 = []
    · simp only [hpos, ht, if_pos, if_neg, ite_true, ite_false, reduceIte]
      exact ⟨by omega, spanAcc_mono h2 (by omega)⟩
    · simp only [hpos, ht, if_pos, if_neg, ite_true, ite_false, reduceIte]
      refine ⟨by omega, ?_⟩
      have hlen1 : 0 < len := hlenpos ht
      exact spanAcc_emit h2 hlen1

/-- The whole tokenization loop of a well-behaved parser preserves the span
invariant. -/
theorem compute_syntax_loop_inv (p : Parser) (line : Line) (off ss : Nat)
    (ist : State) (orig : List ScopeSpan) (hok : ParserOK p) :
    ∀ (fuel : Nat) (σ σ' : SynState),
      σ.i ≤ line.length → SpanAcc (off - ss) orig σ.spans σ.i →
      compute_syntax_loop p line off ss ist fuel σ = some σ' →
      σ'.i ≤ line.length ∧ SpanAcc (off - ss) orig σ'.spans σ'.i := by
  intro fuel
  induction fuel with
  | zero =>
    intro σ σ' h1 h2 hrun
    by_cases hlt : σ.i < line.length
    · simp [compute_syntax_loop, hlt] at hrun
    · rw [compute_syntax_loop_exits _ _ _ _ _ _ _ (by omega)] at hrun
      cases hrun
      exact ⟨h1, h2⟩
  | succ k ih =>
    intro σ σ' h1 h2 hrun
    by_cases hlt : σ.i < line.length
    · rw [compute_syntax_loop_step _ _ _ _ _ _ _ hlt] at hrun
      obtain ⟨h1', h2'⟩ := compute_syntax_step_inv p line off ss ist orig σ
        hok hlt h1 h2
      exact ih _ _ h1' h2' hrun
    · rw [compute_syntax_loop_exits _ _ _ _ _ _ _ (by omega)] at hrun
      cases hrun
      exact ⟨h1, h2⟩

/-- C8: for a well-behaved parser, every span the tokenizer emits satisfies
`start < stop`, the batch stays sorted by start and pairwise non-overlapping,
and every newly emitted span lies inside the window of the line being
tokenized (so no span crosses a line boundary). -/
theorem c8_span_validity (vs : ViewState) (line : Line) (st : State)
    (vs' : ViewState)
    (hok : ParserOK vs.parser)
    (hvalid : ∀ sp ∈ vs.spans, sp.start < sp.stop)
    (hsorted : spansChain vs.spans)
    (hbound : ∀ sp ∈ vs.spans, sp.stop ≤ vs.offset - vs.spans_start)
    (h : compute_syntax vs line = some (st, vs')) :
    (∀ sp ∈ vs'.spans, sp.start < sp.stop) ∧
    spansChain vs'.spans ∧
    (∀ sp ∈ vs'.spans, sp ∈ vs.spans ∨
      (vs.offset - vs.spans_start ≤ sp.start ∧
       sp.stop ≤ vs.offset - vs.spans_start + line.length)) := by
  unfold compute_syntax at h
  rcases hrun : compute_syntax_loop vs.parser line vs.offset vs.spans_start
      vs.initial_state line.length
      { i := 0, state := vs.initial_state, tracker := vs.tracker,
        spans := vs.spans, new_scopes := vs.new_scopes } with _ | σ'
  · rw [hrun] at h
    cases h
  · rw [hrun] at h
    dsimp only at h
    cases h
    have hacc0 : SpanAcc (vs.offset - vs.spans_start) vs.spans vs.spans 0 :=
      ⟨hvalid, hsorted, fun sp hsp => by have := hbound sp hsp; omega,
       fun sp hsp => Or.inl hsp⟩
    obtain ⟨hi, hv, hc, hub, hm⟩ := compute_syntax_loop_inv vs.parser line
      vs.offset vs.spans_start vs.initial_state vs.spans hok line.length
      _ σ' (by dsimp only; omega) hacc0 hrun
    refine ⟨hv, hc, ?_⟩
    intro sp hsp
    rcases hm sp hsp with hin | hstart
    · exact Or.inl hin
    · exact Or.inr ⟨hstart, le_trans (hub sp hsp) (by omega)⟩

/-- The C8 witness parser is well behaved. -/
theorem c8parser_ok : ParserOK c8parser := by
  intro s st h
  have := List.length_pos.mpr h
  refine ⟨?_, ?_, ?_⟩ <;> simp [c8parser] <;> omega

/-- C8 witness: the span invariants evaluated on a concrete two-byte line. -/
theorem c8_span_validity_witness :
    compute_syntax c8vs ['a', 'b'] = some (0, c8vs') ∧
    ((∀ sp ∈ c8vs'.spans, sp.start < sp.stop) ∧
     spansChain c8vs'.spans ∧
     (∀ sp ∈ c8vs'.spans, sp ∈ c8vs.spans ∨
       (c8vs.offset - c8vs.spans_start ≤ sp.start ∧
        sp.stop ≤ c8vs.offset - c8vs.spans_start +
          (['a', 'b'] : Line).length))) :=
  ⟨rfl, c8_span_validity c8vs ['a', 'b'] 0 c8vs' c8parser_ok
    (fun sp hsp => absurd (show sp ∈ ([] : List ScopeSpan) from hsp)
      (List.not_mem_nil sp))
    List.chain'_nil
    (fun sp hsp => absurd (show sp ∈ ([] : List ScopeSpan) from hsp)
      (List.not_mem_nil sp))
    rfl⟩

/-- Resynchronisation does not touch the pending-request state. -/
theorem resync_pending (vs : ViewState) (view : HostView) (off : Nat) :
    (resyncOffset vs view off).2.pending = view.pending ∧
    (resyncOffset vs view off).2.pending_counter = view.pending_counter := by
  unfold resyncOffset
  by_cases h : off = vs.offset
  · simp [h]
  · obtain ⟨-, -, -, -, -, -, -, -, -, -, -, -, -, -, hp, hc⟩ := flush_spec vs view
    simp [h, hp, hc]

/-- The convergence/frontier phase appends only non-schedule events and does
not touch the pending-request state. -/
theorem hlAfterResync_preserves (vs vs' : ViewState) (view view' : HostView)
    (ln : Nat) (b : Bool)
    (h : hlAfterResync vs view ln = some (b, vs', view')) :
    (∃ l, view'.events = view.events ++ l ∧
      ∀ e ∈ l, e ≠ HostEvent.schedule_idle) ∧
    view'.pending = view.pending ∧
    view'.pending_counter = view.pending_counter := by
  unfold hlAfterResync at h
  rcases htl : tokenizeLine vs view ln with _ | ⟨nf, vs₁⟩ <;> rw [htl] at h
  · cases h
  · dsimp only at h
    rcases nf with _ | ⟨ns, nl⟩
    · simp only [reduceIte] at h
      cases h
      refine ⟨⟨[HostEvent.close_frontier], rfl, ?_⟩, rfl, rfl⟩
      intro e he
      rw [List.mem_singleton.mp he]
      decide
    · dsimp only at h
      rcases hgt : HostView.get view nl with _ | os <;> rw [hgt] at h <;>
        dsimp only at h
      · simp only [reduceIte] at h
        cases h
        refine ⟨⟨[HostEvent.set nl ns, HostEvent.update_frontier nl], ?_, ?_⟩,
          rfl, rfl⟩
        · simp [HostView.set, HostView.update_frontier]
        · intro e he
          rcases List.mem_cons.mp he with rfl | he2
          · intro hx; cases hx
          · rw [List.mem_singleton.mp he2]
            intro hx; cases hx
      · split at h
        · try dsimp only at h
          cases h
          refine ⟨⟨[HostEvent.set nl ns, HostEvent.update_frontier nl], ?_, ?_⟩,
            rfl, rfl⟩
          · simp [HostView.set, HostView.update_frontier]
          · intro e he
            rcases List.mem_cons.mp he with rfl | he2
            · intro hx; cases hx
            · rw [List.mem_singleton.mp he2]
              intro hx; cases hx
        · cases h
          refine ⟨⟨[HostEvent.close_frontier], rfl, ?_⟩, rfl, rfl⟩
          intro e he
          rw [List.mem_singleton.mp he]
          decide

/-- `highlight_one_line` appends only non-schedule events and does not touch
the pending-request state. -/
theorem highlight_preserves (vs vs' : ViewState) (view view' : HostView)
    (b : Bool) (h : highlight_one_line vs view = some (b, vs', view')) :
    (∃ l, view'.events = view.events ++ l ∧
      ∀ e ∈ l, e ≠ HostEvent.schedule_idle) ∧
    view'.pending = view.pending ∧
    view'.pending_counter = view.pending_counter := by
  unfold highlight_one_line at h
  rcases hf : view.frontier with _ | ln₀ <;> rw [hf] at h <;> dsimp only at h
  · cases h
    exact ⟨⟨[], by simp, by simp⟩, rfl, rfl⟩
  · obtain ⟨l₁, hl₁, hb₁⟩ :=
      resync_events_only vs view (HostView.get_prev view ln₀).2.1
    obtain ⟨hp₁, hc₁⟩ := resync_pending vs view (HostView.get_prev view ln₀).2.1
    obtain ⟨⟨l₂, hl₂, hb₂⟩, hp₂, hc₂⟩ := hlAfterResync_preserves _ _ _ _ _ _ h
    refine ⟨⟨l₁ ++ l₂, ?_, ?_⟩, ?_, ?_⟩
    · rw [hl₂, hl₁, List.append_assoc]
    · intro e he
      rcases List.mem_append.mp he with h1 | h1
      · exact (isBatchEvent_ne e (hb₁ e h1)).2.2.2
      · exact hb₂ e h1
    · rw [hp₂, hp₁]
    · rw [hc₂, hc₁]

/-- Full behavioural invariant of the idle loop, by induction on the per-tick
line budget. -/
theorem idle_loop_spec :
    ∀ (fuel : Nat) (vs vs' : ViewState) (view view' : HostView) (n : Nat)
      (early : Bool),
      idle_loop fuel vs view = some (n, early, vs', view') →
      n ≤ fuel ∧ (0 < fuel → 1 ≤ n) ∧
      vs'.new_scopes = [] ∧ vs'.spans_start = vs'.offset ∧
      (∃ l, view'.events = view.events ++ l ∧
        (early = true → ∀ e ∈ l, e ≠ HostEvent.schedule_idle)) ∧
      (early = false → view'.events.getLast? = some HostEvent.schedule_idle) ∧
      (n < fuel → early = true ∨
        view.pending (view.pending_counter + (n - 1)) = true) := by
  intro fuel
  induction fuel with
  | zero =>
    intro vs vs' view view' n early h
    unfold idle_loop at h
    dsimp only at h
    cases h
    obtain ⟨ho, hss, hns, -⟩ := flush_spec vs view
    obtain ⟨lf, hlf, -⟩ := flush_events_only vs view
    refine ⟨Nat.le_refl 0, by omega, hns, by rw [hss, ho], ?_, ?_, by omega⟩
    · refine ⟨lf ++ [HostEvent.schedule_idle], ?_, ?_⟩
      · show (flush_spans vs view).2.events ++ [HostEvent.schedule_idle] = _
        rw [hlf, List.append_assoc]
      · intro hcontra
        cases hcontra
    · intro _
      show ((flush_spans vs view).2.events ++
        [HostEvent.schedule_idle]).getLast? = _
      exact List.getLast?_concat _
  | succ k ih =>
    intro vs vs' view view' n early h
    unfold idle_loop at h
    rcases hh : highlight_one_line vs view with _ | ⟨more, vs₁, view₁⟩ <;>
      rw [hh] at h
    · cases h
    · dsimp only at h
      obtain ⟨⟨lh, hlh, hbh⟩, hph, hch⟩ := highlight_preserves _ _ _ _ _ hh
      by_cases hm : more = false
      · rw [if_pos hm] at h
        try dsimp only at h
        cases h
        obtain ⟨ho, hss, hns, -⟩ := flush_spec vs₁ view₁
        obtain ⟨lf, hlf, hbf⟩ := flush_events_only vs₁ view₁
        refine ⟨by omega, by omega, hns, by rw [hss, ho], ?_, ?_, ?_⟩
        · refine ⟨lh ++ lf, ?_, ?_⟩
          · show (flush_spans vs₁ view₁).2.events = _
            rw [hlf, hlh, List.append_assoc]
          · intro _ e he
            rcases List.mem_append.mp he with h1 | h1
            · exact hbh e h1
            · exact (isBatchEvent_ne e (hbf e h1)).2.2.2
        · intro hcontra
          cases hcontra
        · intro _
          exact Or.inl rfl
      · rw [if_neg hm] at h
        unfold HostView.request_is_pending at h
        try dsimp only at h
        cases hpend : view₁.pending view₁.pending_counter <;> rw [hpend] at h <;>
          dsimp only at h
        · rcases hrec : idle_loop k vs₁
              { view₁ with pending_counter := view₁.pending_counter + 1 } with
            _ | ⟨kk, early₂, vs₂, view₃⟩ <;> rw [hrec] at h
          · cases h
          · dsimp only at h
            obtain ⟨ih1, ih2, ih3, ih4, ⟨lr, hlr, hbr⟩, ih6, ih7⟩ :=
              ih _ _ _ _ _ _ hrec
            have hlr' : view₃.events = view₁.events ++ lr := hlr
            cases h
            refine ⟨by omega, by omega, ih3, ih4, ?_, ih6, ?_⟩
            · refine ⟨lh ++ lr, ?_, ?_⟩
              · rw [hlr', hlh, List.append_assoc]
              · intro hearly e he
                rcases List.mem_append.mp he with h1 | h1
                · exact hbh e h1
                · exact hbr hearly e h1
            · intro hn
              rcases ih7 (by omega) with he | hp2
              · exact Or.inl he
              · right
                have hkk : 1 ≤ kk := by
                  by_cases hk0 : 0 < k
                  · exact ih2 hk0
                  · omega
                have hp2' : view₁.pending
                    (view₁.pending_counter + 1 + (kk - 1)) = true := hp2
                rw [hph, hch] at hp2'
                have harg : view.pending_counter + 1 + (kk - 1) =
                    view.pending_counter + (kk + 1 - 1) := by omega
                rw [harg] at hp2'
                exact hp2'
        · cases h
          obtain ⟨ho, hss, hns, -⟩ := flush_spec vs₁
            { view₁ with pending_counter := view₁.pending_counter + 1 }
          obtain ⟨lf, hlf, -⟩ := flush_events_only vs₁
            { view₁ with pending_counter := view₁.pending_counter + 1 }
          have hlf' : (flush_spans vs₁
              { view₁ with pending_counter := view₁.pending_counter + 1
              }).2.events = view₁.events ++ lf := hlf
          refine ⟨by omega, by omega, hns, by rw [hss, ho], ?_, ?_, ?_⟩
          · refine ⟨lh ++ (lf ++ [HostEvent.schedule_idle]), ?_, ?_⟩
            · show (flush_spans vs₁
                  { view₁ with pending_counter := view₁.pending_counter + 1
                  }).2.events ++ [HostEvent.schedule_idle] = _
              rw [hlf', hlh, List.append_assoc, List.append_assoc]
            · intro hcontra
              cases hcontra
          · intro _
            show ((flush_spans vs₁
                { view₁ with pending_counter := view₁.pending_counter + 1
                }).2.events ++ [HostEvent.schedule_idle]).getLast? = _
            exact List.getLast?_concat _
          · intro _
            right
            have hpend' : view.pending view.pending_counter = true := by
              rw [← hph, ← hch]
              exact hpend
            have harg : view.pending_counter + (1 - 1) =
                view.pending_counter := by omega
            rw [harg]
            exact hpend'

/-- C9: one invocation of the idle handler calls `highlight_one_line` at most
`LINES_PER_RPC` times (the ghost count `n`), always returns with a flushed
batch (no pending scopes, `spans_start = offset`), appends `schedule_idle`
exactly when the pass did not end with "no more work" (`early = false`), and
an exit before the budget is either "no more work" or a pending host
request. -/
theorem c9_idle_bounded_flushes_reschedules (vs vs' : ViewState)
    (view view' : HostView) (n : Nat) (early : Bool)
    (h : LangPlugin.idle vs view = some (n, early, vs', view')) :
    n ≤ LINES_PER_RPC ∧
    vs'.new_scopes = [] ∧ vs'.spans_start = vs'.offset ∧
    (early = true → ∀ e ∈ view'.events.drop view.events.length,
      e ≠ HostEvent.schedule_idle) ∧
    (early = false → view'.events.getLast? = some HostEvent.schedule_idle) ∧
    (n < LINES_PER_RPC → early = true ∨
      view.pending (view.pending_counter + (n - 1)) = true) := by
  obtain ⟨h1, -, h3, h4, ⟨l, hl, hb⟩, h6, h7⟩ :=
    idle_loop_spec LINES_PER_RPC vs vs' view view' n early h
  refine ⟨h1, h3, h4, ?_, h6, h7⟩
  intro he e hel
  rw [hl, List.drop_left] at hel
  exact hb he e hel

/-- C9 witness: an idle pass over a view with no frontier stops after one
`highlight_one_line` call with "no more work" and does not reschedule. -/
theorem c9_idle_witness :
    LangPlugin.idle c1vs c3view = some (1, true, c1vs, c3view) ∧
    (1 ≤ LINES_PER_RPC ∧
     c1vs.new_scopes = [] ∧ c1vs.spans_start = c1vs.offset ∧
     (true = true → ∀ e ∈ c3view.events.drop c3view.events.length,
       e ≠ HostEvent.schedule_idle) ∧
     (true = false → c3view.events.getLast? = some HostEvent.schedule_idle) ∧
     (1 < LINES_PER_RPC → true = true ∨
       c3view.pending (c3view.pending_counter + (1 - 1)) = true)) :=
  ⟨rfl, c9_idle_bounded_flushes_reschedules c1vs c1vs c3view c3view 1 true rfl⟩

end XiLang
